import Mathlib

/-!
# Verification of the `lifx` CLI light-command dispatch (`cmd/lifx/light.go`)

Shallow embedding of the command-dispatch code of the `golifx` CLI:
flag-driven filtering of discovered lights (`getLights`), the `power` and
`color` command dispatch (`lightPower`, `lightColor`), and the `list`
command's timeout-bounded polling loop and table printing (`lightList`).

The external client library is modelled as a record of lookup functions
(`Client`); the effects a command performs (lookups, setter invocations,
printing usage) are recorded in an explicit action trace.  The `list`
command's `select` loop over the tick and timeout channels is modelled by
an explicit list of `PollEvent`s delivered to the loop in order.
-/

set_option autoImplicit false

namespace Golifx

deriving instance DecidableEq for Except

/-- Model of `common.Color`: an HSBK color.  The Go components are `uint16` flag
values that are passed through unchanged (no arithmetic), so `Nat` suffices. -/
structure Color where
  hue : Nat
  saturation : Nat
  brightness : Nat
  kelvin : Nat
  deriving DecidableEq, Repr

/-- A discovered light (`common.Light`).  `id` is the value of `ID()`
(a `uint64`); the three getters used by the `list` command may fail, with
an opaque library error modelled as a `String`. -/
structure Light where
  id : Nat
  getLabel : Except String String
  getPower : Except String Bool
  getColor : Except String Color
  deriving DecidableEq, Repr

/-- The external client library, restricted to the two lookup methods the
dispatch code calls from `getLights`.  Errors are opaque `String`s. -/
structure Client where
  getLightByID : Nat → Except String Light
  getLightByLabel : String → Except String Light

/-- Conversion `uint64(id)` for a Go `int` (64-bit signed) `id`: reduction mod `2^64`. -/
def uint64ofInt (i : Int) : Nat := (i % (2 : Int) ^ 64).toNat

/-- An observable effect of a command run: a lookup call made by
`getLights`, a setter invocation (per-light or client-level), or printing
the command usage (`c.Usage()`). -/
inductive Action where
  | usage
  | lookupID (id : Nat)
  | lookupLabel (label : String)
  | setPowerLight (lightId : Nat) (state : Bool)
  | setPowerAll (state : Bool)
  | setColorLight (lightId : Nat) (color : Color) (duration : Int)
  | setColorAll (color : Color) (duration : Int)
  deriving DecidableEq, Repr

/-- The fatal log messages the dispatch code can die with
(`logger.Fatalln` / `logger.Fatalf` calls in `light.go`). -/
inductive FatalMsg where
  | couldNotFindLights (err : String)
  | noLightsFound
  | missingState
  | invalidPowerState (arg : String)
  | missingColorDefinition
  | couldNotFindLightByID (id : Int) (err : String)
  | couldNotFindLightByLabel (label : String) (err : String)
  deriving DecidableEq, Repr

/-- Did the run finish normally, or exit via a fatal log call? -/
inductive Outcome where
  | ok
  | fatal (msg : FatalMsg)
  deriving DecidableEq, Repr

/-- The result of running a command: the trace of observable actions, in
order, and whether the run ended normally or fatally. -/
structure RunResult where
  actions : List Action
  outcome : Outcome
  deriving DecidableEq, Repr

/-- The `for _, id := range flagLightIDs` loop of `getLights`: look up each
ID in order via `client.GetLightByID(uint64(id))`, appending the results;
the first failure is fatal (`Could not find light with ID ...`) and stops
the loop. -/
def lookupIDs (client : Client) : List Int → List Action × Except FatalMsg (List Light)
  | [] => ([], .ok [])
  | i :: rest =>
    match client.getLightByID (uint64ofInt i) with
    | .error e => ([.lookupID (uint64ofInt i)], .error (.couldNotFindLightByID i e))
    | .ok light =>
      (.lookupID (uint64ofInt i) :: (lookupIDs client rest).1,
       (lookupIDs client rest).2.map (light :: ·))

/-- The `for _, label := range flagLightLabels` loop of `getLights`:
look up each label in order via `client.GetLightByLabel(label)`; the first
failure is fatal and stops the loop. -/
def lookupLabels (client : Client) : List String → List Action × Except FatalMsg (List Light)
  | [] => ([], .ok [])
  | s :: rest =>
    match client.getLightByLabel s with
    | .error e => ([.lookupLabel s], .error (.couldNotFindLightByLabel s e))
    | .ok light =>
      (.lookupLabel s :: (lookupLabels client rest).1,
       (lookupLabels client rest).2.map (light :: ·))

/-- Embedding of `getLights` from `light.go`: resolve the `--id` flags (in order), then
the `--label` flags (in order), appending the label results after the ID
results; a failed lookup exits fatally.  Returns the lookup trace and the
resolved light list (or the fatal message). -/
def getLights (client : Client) (flagLightIDs : List Int) (flagLightLabels : List String) :
    List Action × Except FatalMsg (List Light) :=
  let p1 := if flagLightIDs.length > 0 then lookupIDs client flagLightIDs else ([], .ok [])
  match p1.2 with
  | .error m => (p1.1, .error m)
  | .ok l1 =>
    let p2 :=
      if flagLightLabels.length > 0 then lookupLabels client flagLightLabels else ([], .ok [])
    match p2.2 with
    | .error m => (p1.1 ++ p2.1, .error m)
    | .ok l2 => (p1.1 ++ p2.1, .ok (l1 ++ l2))

/-- Body of `lightPower` after the argument has been parsed into `state`:
resolve the targeted lights; on lookup failure exit fatally with no setter
invoked; with a non-empty target list call `light.SetPower(state)` on each
targeted light; with an empty list call `client.SetPower(state)` once. -/
def lightPowerRun (client : Client) (ids : List Int) (labels : List String) (state : Bool) :
    RunResult :=
  match (getLights client ids labels).2 with
  | .error m => ⟨(getLights client ids labels).1, .fatal m⟩
  | .ok lights =>
    if lights.length > 0 then
      ⟨(getLights client ids labels).1 ++ lights.map (fun l => .setPowerLight l.id state), .ok⟩
    else
      ⟨(getLights client ids labels).1 ++ [.setPowerAll state], .ok⟩

/-- Embedding of `lightPower` from `light.go`: with no positional argument print usage
and exit fatally (`Missing state (on|off)`); parse `args[0]` as `on`/`off`;
any other value prints usage and exits fatally (`Invalid power state
requested`); then dispatch via `lightPowerRun`. -/
def lightPower (client : Client) (ids : List Int) (labels : List String) (args : List String) :
    RunResult :=
  match args with
  | [] => ⟨[.usage], .fatal .missingState⟩
  | arg :: _ =>
    if arg = "on" then lightPowerRun client ids labels true
    else if arg = "off" then lightPowerRun client ids labels false
    else ⟨[.usage], .fatal (.invalidPowerState arg)⟩

/-- Embedding of `lightColor` from `light.go`: if all four HSBK flag values are zero,
print usage and exit fatally (`Missing color definition`); otherwise
resolve the targeted lights, build the color from the flag values
unchanged, and dispatch `SetColor(color, duration)` per light (non-empty
target list) or once at client level (empty list). -/
def lightColor (client : Client) (ids : List Int) (labels : List String)
    (hue saturation brightness kelvin : Nat) (duration : Int) : RunResult :=
  if hue = 0 ∧ saturation = 0 ∧ brightness = 0 ∧ kelvin = 0 then
    ⟨[.usage], .fatal .missingColorDefinition⟩
  else
    let color : Color := ⟨hue, saturation, brightness, kelvin⟩
    match (getLights client ids labels).2 with
    | .error m => ⟨(getLights client ids labels).1, .fatal m⟩
    | .ok lights =>
      if lights.length > 0 then
        ⟨(getLights client ids labels).1 ++ lights.map (fun l => .setColorLight l.id color duration),
         .ok⟩
      else
        ⟨(getLights client ids labels).1 ++ [.setColorAll color duration], .ok⟩

/-- The error returned by `client.GetLights()` on a tick, when non-nil:
either `common.ErrNotFound` (tolerated by the loop) or any other error. -/
inductive LightsError where
  | errNotFound
  | other (msg : String)
  deriving DecidableEq, Repr

/-- One delivery on the `select` of `lightList`'s loop: a tick (carrying
the pair `client.GetLights()` returns at that moment: the light list and
the error, possibly nil), or the firing of the timeout channel. -/
inductive PollEvent where
  | tick (lights : List Light) (err : Option LightsError)
  | timeout
  deriving DecidableEq, Repr

/-- How the polling loop of `lightList` ended: exited normally at the
timeout (carrying the lights gathered), exited the program fatally, or —
when the event list runs out with no timeout — still running. -/
inductive LoopResult where
  | exited (lights : List Light)
  | fatal (msg : FatalMsg)
  | running (lights : List Light)
  deriving DecidableEq, Repr

/-- The `for { select { ... } }` loop of `lightList`, driven by an explicit
event list.  On a tick, `lights, err = client.GetLights()` reassigns both;
an error other than `common.ErrNotFound` is fatal (`Could not find
lights`).  On the timeout, an empty `lights` is fatal (`No lights found`);
otherwise `timedOut` is set and the loop breaks.  The returned `Nat`
counts the `GetLights` calls performed. -/
def lightListLoop : List PollEvent → List Light → Nat × LoopResult
  | [], lights => (0, .running lights)
  | .tick ls e :: rest, _ =>
    match e with
    | some (.other m) => (1, .fatal (.couldNotFindLights m))
    | _ => ((lightListLoop rest ls).1 + 1, (lightListLoop rest ls).2)
  | .timeout :: _, lights =>
    if lights.length = 0 then (0, .fatal .noLightsFound)
    else (0, .exited lights)

/-- A printed table row: the header line, or one entry per light with the
values of `ID()`, `GetLabel()`, `GetPower()` and `GetColor()`. -/
inductive Row where
  | header
  | entry (id : Nat) (label : String) (power : Bool) (color : Color)
  deriving DecidableEq, Repr

/-- The `for _, l := range lights` printing loop of `lightList`: each
getter failure warns and `continue`s (the light is skipped); otherwise one
row is printed with the getter values. -/
def printLights : List Light → List Row
  | [] => []
  | l :: rest =>
    match l.getLabel with
    | .error _ => printLights rest
    | .ok label =>
      match l.getPower with
      | .error _ => printLights rest
      | .ok power =>
        match l.getColor with
        | .error _ => printLights rest
        | .ok color => .entry l.id label power color :: printLights rest

/-- The full table `lightList` prints after its loop exits: a header row
followed by the per-light rows. -/
def lightListTable (lights : List Light) : List Row :=
  .header :: printLights lights

/-- Overall result of the `list` command. -/
inductive ListOutcome where
  | printed (rows : List Row)
  | fatal (msg : FatalMsg)
  | running (lights : List Light)
  deriving DecidableEq, Repr

/-- Embedding of `lightList` from `light.go`: run the polling loop starting from the
nil `lights` slice, then print the table of the gathered lights.  Returns
the number of `GetLights` calls made and the outcome. -/
def lightList (events : List PollEvent) : Nat × ListOutcome :=
  ((lightListLoop events []).1,
   match (lightListLoop events []).2 with
   | .exited lights => .printed (lightListTable lights)
   | .fatal m => .fatal m
   | .running lights => .running lights)

/-- Is the action a setter invocation (`SetPower`/`SetColor`, per-light or
client-level)?  Lookup calls and usage printing are not setters. -/
def isSetterAct : Action → Bool
  | .setPowerLight _ _ => true
  | .setPowerAll _ => true
  | .setColorLight _ _ _ => true
  | .setColorAll _ _ => true
  | _ => false

/-- The setter invocations of a run, in order. -/
def setters (r : RunResult) : List Action := r.actions.filter isSetterAct

/-- The boolean state carried by a power-setter action. -/
def powerState : Action → Option Bool
  | .setPowerLight _ s => some s
  | .setPowerAll s => some s
  | _ => none

/-- Spec-side reformulation of the target list (for the refinement claim):
for each `--id` value in flag order the light returned by
`GetLightByID(uint64 id)`, then for each `--label` value in flag order the
light returned by `GetLightByLabel`, IDs first, then labels; `none` when
any lookup fails. -/
def specTargets (client : Client) (ids : List Int) (labels : List String) :
    Option (List Light) := do
  let idLights ← ids.mapM (fun i => (client.getLightByID (uint64ofInt i)).toOption)
  let labelLights ← labels.mapM (fun s => (client.getLightByLabel s).toOption)
  pure (idLights ++ labelLights)

/-- Spec-side reformulation of one printed row (for the table claim): the
entry holding the getter values when all three getters succeed, `none`
(row skipped) when any getter fails. -/
def renderRow (l : Light) : Option Row :=
  match l.getLabel, l.getPower, l.getColor with
  | .ok label, .ok power, .ok color => some (.entry l.id label power color)
  | _, _, _ => none

/-- A tick event whose error the polling loop tolerates: a nil error or
`common.ErrNotFound`. -/
def isCleanTick : PollEvent → Bool
  | .tick _ none => true
  | .tick _ (some .errNotFound) => true
  | _ => false

/-- The value of the loop's `lights` variable after processing the given
events, starting from `cur`: each tick reassigns it to the returned list. -/
def gatheredLights (cur : List Light) : List PollEvent → List Light
  | [] => cur
  | .tick ls _ :: rest => gatheredLights ls rest
  | .timeout :: rest => gatheredLights cur rest

/-- A concrete color used to instantiate the theorems. -/
def demoColor : Color := ⟨100, 200, 300, 3500⟩

/-- A concrete light with ID 1. -/
def demoLight : Light := ⟨1, .ok "kitchen", .ok true, .ok demoColor⟩

/-- A concrete light with ID 2. -/
def demoLight2 : Light := ⟨2, .ok "porch", .ok false, .ok demoColor⟩

/-- A concrete light whose label getter fails. -/
def badLight : Light := ⟨7, .error "request timed out", .ok true, .ok demoColor⟩

/-- A concrete client knowing lights 1 and 2 and the label `kitchen`. -/
def demoClient : Client where
  getLightByID := fun n =>
    if n = 1 then .ok demoLight else if n = 2 then .ok demoLight2 else .error "not found"
  getLightByLabel := fun s =>
    if s = "kitchen" then .ok demoLight else .error "not found"

/-! ## Basic lemmas about the lookup traces -/

theorem lookupIDs_nil (client : Client) : lookupIDs client [] = ([], .ok []) := rfl

theorem lookupLabels_nil (client : Client) : lookupLabels client [] = ([], .ok []) := rfl

/-- Unfolding of `getLights`: the `len > 0` guards in the Go source are
no-ops because a loop over an empty slice does nothing. -/
theorem getLights_simp (client : Client) (ids : List Int) (labels : List String) :
    getLights client ids labels =
      match (lookupIDs client ids).2 with
      | .error m => ((lookupIDs client ids).1, .error m)
      | .ok l1 =>
        match (lookupLabels client labels).2 with
        | .error m => ((lookupIDs client ids).1 ++ (lookupLabels client labels).1, .error m)
        | .ok l2 => ((lookupIDs client ids).1 ++ (lookupLabels client labels).1, .ok (l1 ++ l2)) := by
  unfold getLights
  cases ids with
  | nil =>
    cases labels with
    | nil => rfl
    | cons s ss => simp [lookupIDs_nil, List.length_cons]
  | cons i is =>
    cases labels with
    | nil => simp [lookupLabels_nil, List.length_cons]
    | cons s ss => simp [List.length_cons]

/-- Every action traced by the ID-lookup loop is an ID lookup. -/
theorem lookupIDs_trace (client : Client) (ids : List Int) :
    ∀ a ∈ (lookupIDs client ids).1, ∃ n, a = Action.lookupID n := by
  induction ids with
  | nil => intro a ha; simp [lookupIDs] at ha
  | cons i is ih =>
    intro a ha
    cases h : client.getLightByID (uint64ofInt i) with
    | error e =>
      simp only [lookupIDs, h] at ha
      simp at ha
      exact ⟨_, ha⟩
    | ok light =>
      simp only [lookupIDs, h] at ha
      simp at ha
      rcases ha with rfl | ha
      · exact ⟨_, rfl⟩
      · exact ih a ha

/-- Every action traced by the label-lookup loop is a label lookup. -/
theorem lookupLabels_trace (client : Client) (labels : List String) :
    ∀ a ∈ (lookupLabels client labels).1, ∃ s, a = Action.lookupLabel s := by
  induction labels with
  | nil => intro a ha; simp [lookupLabels] at ha
  | cons s ss ih =>
    intro a ha
    cases h : client.getLightByLabel s with
    | error e =>
      simp only [lookupLabels, h] at ha
      simp at ha
      exact ⟨_, ha⟩
    | ok light =>
      simp only [lookupLabels, h] at ha
      simp at ha
      rcases ha with rfl | ha
      · exact ⟨_, rfl⟩
      · exact ih a ha

/-- Every action `getLights` traces is a lookup call. -/
theorem getLights_trace (client : Client) (ids : List Int) (labels : List String) :
    ∀ a ∈ (getLights client ids labels).1,
      (∃ n, a = Action.lookupID n) ∨ (∃ s, a = Action.lookupLabel s) := by
  intro a ha
  rw [getLights_simp] at ha
  cases h1 : (lookupIDs client ids).2 with
  | error m =>
    rw [h1] at ha
    exact .inl (lookupIDs_trace client ids a ha)
  | ok l1 =>
    rw [h1] at ha
    cases h2 : (lookupLabels client labels).2 with
    | error m =>
      rw [h2] at ha
      simp only [List.mem_append] at ha
      rcases ha with ha | ha
      · exact .inl (lookupIDs_trace client ids a ha)
      · exact .inr (lookupLabels_trace client labels a ha)
    | ok l2 =>
      rw [h2] at ha
      simp only [List.mem_append] at ha
      rcases ha with ha | ha
      · exact .inl (lookupIDs_trace client ids a ha)
      · exact .inr (lookupLabels_trace client labels a ha)

/-- No action in the `getLights` trace is a setter. -/
theorem isSetterAct_getLights (client : Client) (ids : List Int) (labels : List String) :
    ∀ a ∈ (getLights client ids labels).1, isSetterAct a = false := by
  intro a ha
  rcases getLights_trace client ids labels a ha with ⟨n, rfl⟩ | ⟨s, rfl⟩ <;> rfl

/-- Filtering the `getLights` trace for setters yields nothing. -/
theorem filter_getLights (client : Client) (ids : List Int) (labels : List String) :
    ((getLights client ids labels).1).filter isSetterAct = [] := by
  rw [List.filter_eq_nil_iff]
  intro a ha
  simp [isSetterAct_getLights client ids labels a ha]

/-- The setter invocations of a `power` dispatch, as a function of the
resolved target list: one `SetPower` per targeted light when the list is
non-empty, one client-level `SetPower` when it is empty, none when the
lookup failed. -/
theorem setters_lightPowerRun (client : Client) (ids : List Int) (labels : List String)
    (state : Bool) :
    setters (lightPowerRun client ids labels state) =
      match (getLights client ids labels).2 with
      | .error _ => []
      | .ok lights =>
        if lights.length > 0 then lights.map (fun l => Action.setPowerLight l.id state)
        else [Action.setPowerAll state] := by
  unfold setters lightPowerRun
  cases h : (getLights client ids labels).2 with
  | error m => simp [filter_getLights]
  | ok lights =>
    by_cases hl : lights.length > 0
    · simp only [hl, if_true, List.filter_append, filter_getLights, List.nil_append]
      rw [List.filter_eq_self]
      intro a ha
      obtain ⟨l, _, rfl⟩ := List.mem_map.mp ha
      rfl
    · simp only [hl, if_false, List.filter_append, filter_getLights, List.nil_append]
      rfl

/-- The setter invocations of a `color` dispatch that passed the all-zero
validation, as a function of the resolved target list. -/
theorem setters_lightColor (client : Client) (ids : List Int) (labels : List String)
    (hue sat bri kel : Nat) (d : Int)
    (hval : ¬(hue = 0 ∧ sat = 0 ∧ bri = 0 ∧ kel = 0)) :
    setters (lightColor client ids labels hue sat bri kel d) =
      match (getLights client ids labels).2 with
      | .error _ => []
      | .ok lights =>
        if lights.length > 0 then
          lights.map (fun l => Action.setColorLight l.id ⟨hue, sat, bri, kel⟩ d)
        else [Action.setColorAll ⟨hue, sat, bri, kel⟩ d] := by
  unfold setters lightColor
  rw [if_neg hval]
  cases h : (getLights client ids labels).2 with
  | error m => simp [filter_getLights]
  | ok lights =>
    by_cases hl : lights.length > 0
    · simp only [hl, if_true, List.filter_append, filter_getLights, List.nil_append]
      rw [List.filter_eq_self]
      intro a ha
      obtain ⟨l, _, rfl⟩ := List.mem_map.mp ha
      rfl
    · simp only [hl, if_false, List.filter_append, filter_getLights, List.nil_append]
      rfl

/-! ## Claims C4, C5, C9: argument parsing and validation of `power` and `color` -/

/-- Core passthrough fact shared by the color claims: every `SetColor`
action of a validated `color` run carries exactly the flag color and the
flag duration. -/
theorem lightColor_passthrough (client : Client) (ids : List Int) (labels : List String)
    (hue sat bri kel : Nat) (d : Int) (hval : ¬(hue = 0 ∧ sat = 0 ∧ bri = 0 ∧ kel = 0)) :
    ∀ a ∈ (lightColor client ids labels hue sat bri kel d).actions,
      (∀ lid c dd, a = Action.setColorLight lid c dd → c = ⟨hue, sat, bri, kel⟩ ∧ dd = d) ∧
      (∀ c dd, a = Action.setColorAll c dd → c = ⟨hue, sat, bri, kel⟩ ∧ dd = d) := by
  intro a ha
  unfold lightColor at ha
  rw [if_neg hval] at ha
  cases h : (getLights client ids labels).2 with
  | error m =>
    simp only [h] at ha
    rcases getLights_trace client ids labels a ha with ⟨n, rfl⟩ | ⟨s, rfl⟩ <;>
      exact ⟨fun lid c dd hc => (nomatch hc), fun c dd hc => (nomatch hc)⟩
  | ok lights =>
    simp only [h] at ha
    by_cases hl : lights.length > 0
    · rw [if_pos hl] at ha
      simp only [List.mem_append] at ha
      rcases ha with ha | ha
      · rcases getLights_trace client ids labels a ha with ⟨n, rfl⟩ | ⟨s, rfl⟩ <;>
          exact ⟨fun lid c dd hc => (nomatch hc), fun c dd hc => (nomatch hc)⟩
      · obtain ⟨l, _, rfl⟩ := List.mem_map.mp ha
        refine ⟨fun lid c dd hc => ?_, fun c dd hc => (nomatch hc)⟩
        injection hc with h1 h2 h3
        exact ⟨h2.symm, h3.symm⟩
    · rw [if_neg hl] at ha
      simp only [List.mem_append, List.mem_singleton] at ha
      rcases ha with ha | rfl
      · rcases getLights_trace client ids labels a ha with ⟨n, rfl⟩ | ⟨s, rfl⟩ <;>
          exact ⟨fun lid c dd hc => (nomatch hc), fun c dd hc => (nomatch hc)⟩
      · refine ⟨fun lid c dd hc => (nomatch hc), fun c dd hc => ?_⟩
        injection hc with h1 h2
        exact ⟨h1.symm, h2.symm⟩

/-- C5: the `power` command parses its single positional argument: `on`
invokes `SetPower(true)`, `off` invokes `SetPower(false)`, and a missing
or unrecognized argument makes the command print usage and exit fatally
without invoking any setter. -/
theorem c5_power_argument (client : Client) (ids : List Int) (labels : List String)
    (arg : String) (rest : List String) (hon : arg ≠ "on") (hoff : arg ≠ "off") :
    lightPower client ids labels [] = ⟨[.usage], .fatal .missingState⟩ ∧
    lightPower client ids labels (arg :: rest) = ⟨[.usage], .fatal (.invalidPowerState arg)⟩ ∧
    (∀ a ∈ setters (lightPower client ids labels ("on" :: rest)), powerState a = some true) ∧
    (∀ a ∈ setters (lightPower client ids labels ("off" :: rest)), powerState a = some false) ∧
    (∀ lights, (getLights client ids labels).2 = .ok lights →
      setters (lightPower client ids labels ("on" :: rest)) ≠ [] ∧
      setters (lightPower client ids labels ("off" :: rest)) ≠ []) := by
  have hon' : lightPower client ids labels ("on" :: rest) = lightPowerRun client ids labels true := by
    simp [lightPower]
  have hoff' : lightPower client ids labels ("off" :: rest) =
      lightPowerRun client ids labels false := by
    simp [lightPower]
  refine ⟨rfl, by simp [lightPower, hon, hoff], ?_, ?_, ?_⟩
  · intro a ha
    rw [hon', setters_lightPowerRun] at ha
    cases h : (getLights client ids labels).2 with
    | error m => simp only [h] at ha; simp at ha
    | ok lights =>
      simp only [h] at ha
      by_cases hl : lights.length > 0
      · rw [if_pos hl] at ha
        obtain ⟨l, _, rfl⟩ := List.mem_map.mp ha
        rfl
      · rw [if_neg hl] at ha
        simp at ha
        subst ha
        rfl
  · intro a ha
    rw [hoff', setters_lightPowerRun] at ha
    cases h : (getLights client ids labels).2 with
    | error m => simp only [h] at ha; simp at ha
    | ok lights =>
      simp only [h] at ha
      by_cases hl : lights.length > 0
      · rw [if_pos hl] at ha
        obtain ⟨l, _, rfl⟩ := List.mem_map.mp ha
        rfl
      · rw [if_neg hl] at ha
        simp at ha
        subst ha
        rfl
  · intro lights hok
    constructor
    · rw [hon', setters_lightPowerRun, hok]
      cases lights with
      | nil => simp
      | cons l ls => simp
    · rw [hoff', setters_lightPowerRun, hok]
      cases lights with
      | nil => simp
      | cons l ls => simp

/-- C5 witness: an unrecognized argument exits fatally after usage. -/
theorem c5_power_argument_witness :
    lightPower demoClient [] [] ["maybe"] = ⟨[.usage], .fatal (.invalidPowerState "maybe")⟩ :=
  (c5_power_argument demoClient [] [] "maybe" [] (by decide) (by decide)).2.1

/-- C4: every `SetColor` call a validated `color` run makes receives
exactly the HSBK color built from the four flag values, unchanged,
together with the `--duration` flag value. -/
theorem c4_color_passthrough (client : Client) (ids : List Int) (labels : List String)
    (hue sat bri kel : Nat) (d : Int) (hval : ¬(hue = 0 ∧ sat = 0 ∧ bri = 0 ∧ kel = 0)) :
    ∀ a ∈ (lightColor client ids labels hue sat bri kel d).actions,
      (∀ lid c dd, a = Action.setColorLight lid c dd → c = ⟨hue, sat, bri, kel⟩ ∧ dd = d) ∧
      (∀ c dd, a = Action.setColorAll c dd → c = ⟨hue, sat, bri, kel⟩ ∧ dd = d) :=
  lightColor_passthrough client ids labels hue sat bri kel d hval

/-- C4 witness: with flags (5,6,7,8) and duration 9 and no target flags,
the client-level `SetColor` receives exactly that color and duration. -/
theorem c4_color_passthrough_witness :
    Color.mk 5 6 7 8 = Color.mk 5 6 7 8 ∧ (9 : Int) = 9 :=
  (c4_color_passthrough demoClient [] [] 5 6 7 8 9 (by decide)
      (Action.setColorAll ⟨5, 6, 7, 8⟩ 9) (by decide)).2 ⟨5, 6, 7, 8⟩ 9 rfl

/-- C9: the all-zero HSBK flag combination is rejected fatally before any
`SetColor` call, so the all-zero color can never be set; and no other
range validation is performed — a kelvin value of 1, far outside the
documented 2500–9000 range, is still dispatched to `SetColor`. -/
theorem c9_zero_color (client : Client) (ids : List Int) (labels : List String) (d : Int) :
    lightColor client ids labels 0 0 0 0 d = ⟨[.usage], .fatal .missingColorDefinition⟩ ∧
    (∀ hue sat bri kel, ∀ a ∈ (lightColor client ids labels hue sat bri kel d).actions,
      (∀ lid dd, a ≠ Action.setColorLight lid ⟨0, 0, 0, 0⟩ dd) ∧
      (∀ dd, a ≠ Action.setColorAll ⟨0, 0, 0, 0⟩ dd)) ∧
    (∀ lights, (getLights client ids labels).2 = .ok lights →
      setters (lightColor client ids labels 0 0 0 1 d) ≠ []) := by
  refine ⟨by simp [lightColor], ?_, ?_⟩
  · intro hue sat bri kel a ha
    by_cases hz : hue = 0 ∧ sat = 0 ∧ bri = 0 ∧ kel = 0
    · obtain ⟨rfl, rfl, rfl, rfl⟩ := hz
      unfold lightColor at ha
      rw [if_pos ⟨rfl, rfl, rfl, rfl⟩] at ha
      simp at ha
      subst ha
      exact ⟨fun lid dd hc => (nomatch hc), fun dd hc => (nomatch hc)⟩
    · have hpass := lightColor_passthrough client ids labels hue sat bri kel d hz a ha
      refine ⟨fun lid dd hc => ?_, fun dd hc => ?_⟩
      · have := (hpass.1 lid ⟨0, 0, 0, 0⟩ dd hc).1
        injection this with e1 e2 e3 e4
        exact hz ⟨e1.symm, e2.symm, e3.symm, e4.symm⟩
      · have := (hpass.2 ⟨0, 0, 0, 0⟩ dd hc).1
        injection this with e1 e2 e3 e4
        exact hz ⟨e1.symm, e2.symm, e3.symm, e4.symm⟩
  · intro lights hok
    rw [setters_lightColor client ids labels 0 0 0 1 d (by simp), hok]
    cases lights with
    | nil => simp
    | cons l ls => simp

/-- C9 witness: kelvin 1 with the other components zero passes validation
and produces a `SetColor` call. -/
theorem c9_zero_color_witness :
    setters (lightColor demoClient [] [] 0 0 0 1 4) ≠ [] :=
  (c9_zero_color demoClient [] [] 4).2.2 [] (by decide)

/-! ## Claim C3: client-level versus per-light dispatch -/

/-- A map image avoiding `b` contributes no `b` occurrences. -/
theorem count_map_zero (f : Light → Action) (b : Action) (hf : ∀ l, f l ≠ b)
    (ll : List Light) : (ll.map f).count b = 0 := by
  rw [List.count_eq_zero]
  intro hm
  obtain ⟨l, _, he⟩ := List.mem_map.mp hm
  exact hf l he

/-- The `getLights` trace contributes no setter occurrences. -/
theorem count_getLights_zero (client : Client) (ids : List Int) (labels : List String)
    (b : Action) (hb : isSetterAct b = true) :
    ((getLights client ids labels).1).count b = 0 := by
  rw [List.count_eq_zero]
  intro hmem
  have hfalse := isSetterAct_getLights client ids labels b hmem
  rw [hfalse] at hb
  exact absurd hb (by decide)

/-- C3: for the `power` and `color` commands with a successful lookup, the
client-level setter is invoked exactly once precisely when the resolved
target list is empty (in particular, it is empty when neither flag is
given); with a non-empty target list the per-light setter fires once per
targeted light and the client-level setter never fires. -/
theorem c3_dispatch_level (client : Client) (ids : List Int) (labels : List String)
    (lights : List Light) (state : Bool) (hue sat bri kel : Nat) (d : Int)
    (hok : (getLights client ids labels).2 = .ok lights)
    (hval : ¬(hue = 0 ∧ sat = 0 ∧ bri = 0 ∧ kel = 0)) :
    ((lightPower client ids labels [if state then "on" else "off"]).actions.count
        (Action.setPowerAll state) = if lights = [] then 1 else 0) ∧
    ((lightColor client ids labels hue sat bri kel d).actions.count
        (Action.setColorAll ⟨hue, sat, bri, kel⟩ d) = if lights = [] then 1 else 0) ∧
    (lights ≠ [] →
      setters (lightPower client ids labels [if state then "on" else "off"]) =
        lights.map (fun l => Action.setPowerLight l.id state) ∧
      setters (lightColor client ids labels hue sat bri kel d) =
        lights.map (fun l => Action.setColorLight l.id ⟨hue, sat, bri, kel⟩ d)) ∧
    (lights = [] →
      setters (lightPower client ids labels [if state then "on" else "off"]) =
        [Action.setPowerAll state] ∧
      setters (lightColor client ids labels hue sat bri kel d) =
        [Action.setColorAll ⟨hue, sat, bri, kel⟩ d]) ∧
    (getLights client [] []).2 = .ok [] := by
  have hred : lightPower client ids labels [if state then "on" else "off"] =
      lightPowerRun client ids labels state := by
    cases state <;> simp [lightPower]
  have hPacts : (lightPowerRun client ids labels state).actions =
      (getLights client ids labels).1 ++
        (if lights.length > 0 then lights.map (fun l => Action.setPowerLight l.id state)
         else [Action.setPowerAll state]) := by
    unfold lightPowerRun
    simp only [hok]
    by_cases hl : lights.length > 0
    · rw [if_pos hl, if_pos hl]
    · rw [if_neg hl, if_neg hl]
  have hCacts : (lightColor client ids labels hue sat bri kel d).actions =
      (getLights client ids labels).1 ++
        (if lights.length > 0 then
          lights.map (fun l => Action.setColorLight l.id ⟨hue, sat, bri, kel⟩ d)
         else [Action.setColorAll ⟨hue, sat, bri, kel⟩ d]) := by
    unfold lightColor
    rw [if_neg hval]
    simp only [hok]
    by_cases hl : lights.length > 0
    · rw [if_pos hl, if_pos hl]
    · rw [if_neg hl, if_neg hl]
  refine ⟨?_, ?_, ?_, ?_, rfl⟩
  · rw [hred, hPacts, List.count_append,
      count_getLights_zero client ids labels (Action.setPowerAll state) rfl]
    cases lights with
    | nil => simp
    | cons l ls =>
      have hlen : (l :: ls).length > 0 := by simp
      rw [if_pos hlen, if_neg (by simp : ¬(l :: ls = []))]
      rw [count_map_zero (fun l => Action.setPowerLight l.id state) (Action.setPowerAll state)
        (fun x hx => (nomatch hx)) (l :: ls)]
  · rw [hCacts, List.count_append,
      count_getLights_zero client ids labels (Action.setColorAll ⟨hue, sat, bri, kel⟩ d) rfl]
    cases lights with
    | nil => simp
    | cons l ls =>
      have hlen : (l :: ls).length > 0 := by simp
      rw [if_pos hlen, if_neg (by simp : ¬(l :: ls = []))]
      rw [count_map_zero (fun l => Action.setColorLight l.id ⟨hue, sat, bri, kel⟩ d)
        (Action.setColorAll ⟨hue, sat, bri, kel⟩ d) (fun x hx => (nomatch hx)) (l :: ls)]
  · intro hne
    have hlen : lights.length > 0 := List.length_pos.mpr hne
    constructor
    · rw [hred, setters_lightPowerRun]
      simp only [hok]
      rw [if_pos hlen]
    · rw [setters_lightColor client ids labels hue sat bri kel d hval]
      simp only [hok]
      rw [if_pos hlen]
  · intro hnil
    subst hnil
    constructor
    · rw [hred, setters_lightPowerRun]
      simp only [hok]
      simp
    · rw [setters_lightColor client ids labels hue sat bri kel d hval]
      simp only [hok]
      simp

/-- C3 witness: with `--id 1` resolved to one light, only the per-light
setter fires. -/
theorem c3_dispatch_level_witness :
    setters (lightPower demoClient [1] [] ["on"]) = [Action.setPowerLight 1 true] :=
  ((c3_dispatch_level demoClient [1] [] [demoLight] true 5 6 7 8 9 (by decide)
      (by decide)).2.2.1 (by decide)).1

/-! ## Claim C1: target resolution follows the flag lists -/

theorem toOption_map {e a b : Type} (f : a → b) (x : Except e a) :
    (x.map f).toOption = x.toOption.map f := by
  cases x <;> rfl

/-- The ID-lookup loop computes exactly the ordered `mapM` of
`GetLightByID(uint64 id)` over the `--id` flag values. -/
theorem lookupIDs_toOption (client : Client) (ids : List Int) :
    (lookupIDs client ids).2.toOption =
      ids.mapM (fun i => (client.getLightByID (uint64ofInt i)).toOption) := by
  induction ids with
  | nil => rfl
  | cons i is ih =>
    rw [List.mapM_cons]
    cases h : client.getLightByID (uint64ofInt i) with
    | error e =>
      simp only [lookupIDs, h]
      simp [Except.toOption]
    | ok light =>
      simp only [lookupIDs, h]
      rw [toOption_map, ih]
      cases hm : is.mapM (fun i => (client.getLightByID (uint64ofInt i)).toOption) with
      | none => simp [Except.toOption, hm]
      | some ls => simp [Except.toOption, hm]

/-- The label-lookup loop computes exactly the ordered `mapM` of
`GetLightByLabel` over the `--label` flag values. -/
theorem lookupLabels_toOption (client : Client) (labels : List String) :
    (lookupLabels client labels).2.toOption =
      labels.mapM (fun s => (client.getLightByLabel s).toOption) := by
  induction labels with
  | nil => rfl
  | cons s ss ih =>
    rw [List.mapM_cons]
    cases h : client.getLightByLabel s with
    | error e =>
      simp only [lookupLabels, h]
      simp [Except.toOption]
    | ok light =>
      simp only [lookupLabels, h]
      rw [toOption_map, ih]
      cases hm : ss.mapM (fun s => (client.getLightByLabel s).toOption) with
      | none => simp [Except.toOption, hm]
      | some ls => simp [Except.toOption, hm]

/-- C1: the resolved target list is exactly the `--id` lookups in flag
order followed by the `--label` lookups in flag order, and when it is
non-empty it is exactly the set of lights the `power` and `color` commands
act on. -/
theorem c1_targets (client : Client) (ids : List Int) (labels : List String) :
    ((getLights client ids labels).2.toOption = specTargets client ids labels) ∧
    (∀ lights, (getLights client ids labels).2 = .ok lights → lights ≠ [] →
      setters (lightPower client ids labels ["on"]) =
        lights.map (fun l => Action.setPowerLight l.id true) ∧
      (∀ hue sat bri kel d, ¬(hue = 0 ∧ sat = 0 ∧ bri = 0 ∧ kel = 0) →
        setters (lightColor client ids labels hue sat bri kel d) =
          lights.map (fun l => Action.setColorLight l.id ⟨hue, sat, bri, kel⟩ d))) := by
  constructor
  · rw [getLights_simp]
    unfold specTargets
    rw [← lookupIDs_toOption, ← lookupLabels_toOption]
    cases h1 : (lookupIDs client ids).2 with
    | error m => simp [Except.toOption]
    | ok l1 =>
      cases h2 : (lookupLabels client labels).2 with
      | error m => simp [Except.toOption]
      | ok l2 => simp [Except.toOption]
  · intro lights hok hne
    have hlen : lights.length > 0 := List.length_pos.mpr hne
    have hon : lightPower client ids labels ["on"] = lightPowerRun client ids labels true := by
      simp [lightPower]
    constructor
    · rw [hon, setters_lightPowerRun]
      simp only [hok]
      rw [if_pos hlen]
    · intro hue sat bri kel d hval
      rw [setters_lightColor client ids labels hue sat bri kel d hval]
      simp only [hok]
      rw [if_pos hlen]

/-- C1 witness: `--id 1 --label kitchen` resolves (ID first, then label)
and the `power on` command acts on exactly those lights. -/
theorem c1_targets_witness :
    setters (lightPower demoClient [1] ["kitchen"] ["on"]) =
      [Action.setPowerLight 1 true, Action.setPowerLight 1 true] :=
  ((c1_targets demoClient [1] ["kitchen"]).2 [demoLight, demoLight] (by decide) (by decide)).1

/-! ## Claim C6: lookup failure is fatal at the first failure, no setter runs -/

/-- Pulling a prefix of successful ID lookups out of the loop: the trace
lists each prefix ID exactly once, in order, and the rest of the loop runs
unchanged after it. -/
theorem lookupIDs_append (client : Client) (pre : List Int)
    (h : ∀ j ∈ pre, (client.getLightByID (uint64ofInt j)).isOk = true) :
    ∃ lsPre, ∀ rest,
      (lookupIDs client (pre ++ rest)).1 =
        pre.map (fun j => Action.lookupID (uint64ofInt j)) ++ (lookupIDs client rest).1 ∧
      (lookupIDs client (pre ++ rest)).2 =
        match (lookupIDs client rest).2 with
        | .ok ls => .ok (lsPre ++ ls)
        | .error m => .error m := by
  induction pre with
  | nil =>
    refine ⟨[], fun rest => ⟨by simp, ?_⟩⟩
    cases h2 : (lookupIDs client rest).2 <;> simp [h2]
  | cons j js ih =>
    have hj := h j (List.mem_cons_self j js)
    obtain ⟨light, hlight⟩ : ∃ l, client.getLightByID (uint64ofInt j) = .ok l := by
      cases hc : client.getLightByID (uint64ofInt j) with
      | error e => rw [hc] at hj; simp [Except.isOk, Except.toBool] at hj
      | ok l => exact ⟨l, rfl⟩
    obtain ⟨lsPre, hih⟩ := ih (fun x hx => h x (List.mem_cons_of_mem j hx))
    refine ⟨light :: lsPre, fun rest => ?_⟩
    have h1 := (hih rest).1
    have h2 := (hih rest).2
    constructor
    · rw [List.cons_append]
      simp only [lookupIDs, hlight]
      rw [h1]
      simp
    · rw [List.cons_append]
      simp only [lookupIDs, hlight]
      rw [h2]
      cases h3 : (lookupIDs client rest).2 <;> simp [Except.map]

/-- Pulling a prefix of successful label lookups out of the loop. -/
theorem lookupLabels_append (client : Client) (pre : List String)
    (h : ∀ t ∈ pre, (client.getLightByLabel t).isOk = true) :
    ∃ lsPre, ∀ rest,
      (lookupLabels client (pre ++ rest)).1 =
        pre.map Action.lookupLabel ++ (lookupLabels client rest).1 ∧
      (lookupLabels client (pre ++ rest)).2 =
        match (lookupLabels client rest).2 with
        | .ok ls => .ok (lsPre ++ ls)
        | .error m => .error m := by
  induction pre with
  | nil =>
    refine ⟨[], fun rest => ⟨by simp, ?_⟩⟩
    cases h2 : (lookupLabels client rest).2 <;> simp [h2]
  | cons t ts ih =>
    have ht := h t (List.mem_cons_self t ts)
    obtain ⟨light, hlight⟩ : ∃ l, client.getLightByLabel t = .ok l := by
      cases hc : client.getLightByLabel t with
      | error e => rw [hc] at ht; simp [Except.isOk, Except.toBool] at ht
      | ok l => exact ⟨l, rfl⟩
    obtain ⟨lsPre, hih⟩ := ih (fun x hx => h x (List.mem_cons_of_mem t hx))
    refine ⟨light :: lsPre, fun rest => ?_⟩
    have h1 := (hih rest).1
    have h2 := (hih rest).2
    constructor
    · rw [List.cons_append]
      simp only [lookupLabels, hlight]
      rw [h1]
      simp
    · rw [List.cons_append]
      simp only [lookupLabels, hlight]
      rw [h2]
      cases h3 : (lookupLabels client rest).2 <;> simp [Except.map]

/-- C6: a failing `GetLightByID` or `GetLightByLabel` lookup is fatal at
the first failure: every earlier lookup ran exactly once, no lookup after
the failing one runs, and no setter (per-light or client-level) is invoked
in the run, for both the `power` and the `color` command. -/
theorem c6_lookup_failure (client : Client) :
    (∀ (pre post : List Int) (bad : Int) (labels : List String) (e : String),
      (∀ j ∈ pre, (client.getLightByID (uint64ofInt j)).isOk = true) →
      client.getLightByID (uint64ofInt bad) = .error e →
      getLights client (pre ++ bad :: post) labels =
        ((pre ++ [bad]).map (fun j => Action.lookupID (uint64ofInt j)),
         .error (.couldNotFindLightByID bad e))) ∧
    (∀ (ids : List Int) (pre post : List String) (bad : String) (e : String),
      (∀ j ∈ ids, (client.getLightByID (uint64ofInt j)).isOk = true) →
      (∀ t ∈ pre, (client.getLightByLabel t).isOk = true) →
      client.getLightByLabel bad = .error e →
      getLights client ids (pre ++ bad :: post) =
        (ids.map (fun j => Action.lookupID (uint64ofInt j)) ++
          (pre ++ [bad]).map Action.lookupLabel,
         .error (.couldNotFindLightByLabel bad e))) ∧
    (∀ (ids : List Int) (labels : List String) (m : FatalMsg) (args : List String)
        (hue sat bri kel : Nat) (d : Int),
      (getLights client ids labels).2 = .error m →
      setters (lightPower client ids labels args) = [] ∧
      setters (lightColor client ids labels hue sat bri kel d) = [] ∧
      (lightPower client ids labels ["on"]).outcome = .fatal m ∧
      (¬(hue = 0 ∧ sat = 0 ∧ bri = 0 ∧ kel = 0) →
        (lightColor client ids labels hue sat bri kel d).outcome = .fatal m)) := by
  refine ⟨?_, ?_, ?_⟩
  · intro pre post bad labels e hpre hbad
    obtain ⟨lsPre, hch⟩ := lookupIDs_append client pre hpre
    have h1 := (hch (bad :: post)).1
    have h2 := (hch (bad :: post)).2
    have hfail : lookupIDs client (bad :: post) =
        ([Action.lookupID (uint64ofInt bad)], .error (.couldNotFindLightByID bad e)) := by
      simp [lookupIDs, hbad]
    simp only [hfail] at h1 h2
    rw [getLights_simp]
    simp only [h2]
    simp [h1, List.map_append]
  · intro ids pre post bad e hids hpre hbad
    obtain ⟨lsIds, hchI⟩ := lookupIDs_append client ids hids
    have hI1 := (hchI []).1
    have hI2 := (hchI []).2
    simp only [List.append_nil, lookupIDs_nil] at hI1 hI2
    obtain ⟨lsPre, hchL⟩ := lookupLabels_append client pre hpre
    have hL1 := (hchL (bad :: post)).1
    have hL2 := (hchL (bad :: post)).2
    have hfail : lookupLabels client (bad :: post) =
        ([Action.lookupLabel bad], .error (.couldNotFindLightByLabel bad e)) := by
      simp [lookupLabels, hbad]
    simp only [hfail] at hL1 hL2
    rw [getLights_simp]
    simp only [hI2, hL2]
    simp [hI1, hL1, List.map_append]
  · intro ids labels m args hue sat bri kel d herr
    have hpow : ∀ st : Bool, setters (lightPowerRun client ids labels st) = [] := by
      intro st
      rw [setters_lightPowerRun]
      simp only [herr]
    have hcol0 : setters (lightColor client ids labels hue sat bri kel d) = [] := by
      by_cases hz : hue = 0 ∧ sat = 0 ∧ bri = 0 ∧ kel = 0
      · unfold lightColor
        rw [if_pos hz]
        rfl
      · rw [setters_lightColor client ids labels hue sat bri kel d hz]
        simp only [herr]
    have honred : lightPower client ids labels ["on"] = lightPowerRun client ids labels true := by
      simp [lightPower]
    refine ⟨?_, hcol0, ?_, ?_⟩
    · cases args with
      | nil => rfl
      | cons arg rest =>
        by_cases ha1 : arg = "on"
        · subst ha1
          have : lightPower client ids labels ("on" :: rest) =
              lightPowerRun client ids labels true := by simp [lightPower]
          rw [this]
          exact hpow true
        · by_cases ha2 : arg = "off"
          · subst ha2
            have : lightPower client ids labels ("off" :: rest) =
                lightPowerRun client ids labels false := by simp [lightPower]
            rw [this]
            exact hpow false
          · simp [lightPower, ha1, ha2, setters, isSetterAct]
    · rw [honred]
      unfold lightPowerRun
      simp only [herr]
    · intro hz
      unfold lightColor
      rw [if_neg hz]
      simp only [herr]

/-- C6 witness: with `--id 1,99,2` and light 99 unknown, the run dies at
99 having looked up only 1 and 99, with the fatal ID message. -/
theorem c6_lookup_failure_witness :
    getLights demoClient [1, 99, 2] [] =
      ([Action.lookupID 1, Action.lookupID 99],
       .error (.couldNotFindLightByID 99 "not found")) :=
  (c6_lookup_failure demoClient).1 [1] [2] 99 [] "not found" (by decide) (by decide)

/-! ## Claims C2, C7, C8: the `list` command loop and table -/

/-- Running the loop over a prefix of tolerated ticks followed by the
timeout: it consumes exactly the prefix (one `GetLights` call per tick),
then exits at the timeout with the lights of the last tick — fatally if
that list is empty. -/
theorem lightListLoop_tolerated (post : List PollEvent) :
    ∀ (pre : List PollEvent) (cur : List Light),
      (∀ ev ∈ pre, isCleanTick ev = true) →
      lightListLoop (pre ++ PollEvent.timeout :: post) cur =
        (pre.length,
         if (gatheredLights cur pre).length = 0 then LoopResult.fatal FatalMsg.noLightsFound
         else LoopResult.exited (gatheredLights cur pre)) := by
  intro pre
  induction pre with
  | nil =>
    intro cur htol
    by_cases hc : cur.length = 0
    · simp [lightListLoop, gatheredLights, hc]
    · simp [lightListLoop, gatheredLights, hc]
  | cons ev evs ih =>
    intro cur htol
    have hev := htol ev (List.mem_cons_self ev evs)
    cases ev with
    | timeout => simp [isCleanTick] at hev
    | tick ls e =>
      have hrec := ih ls (fun x hx => htol x (List.mem_cons_of_mem _ hx))
      cases e with
      | none =>
        rw [List.cons_append]
        simp only [lightListLoop]
        rw [hrec]
        simp [gatheredLights]
      | some le =>
        cases le with
        | errNotFound =>
          rw [List.cons_append]
          simp only [lightListLoop]
          rw [hrec]
          simp [gatheredLights]
        | other m => simp [isCleanTick] at hev

/-- C2 counterexample: with no successful tick before the timeout the
command does not print the gathered (empty) light list — it dies with
`No lights found`; and a hard `GetLights` error ends the run fatally at
the tick, before any timeout fires. -/
theorem c2_counterexample :
    lightList [PollEvent.timeout] = (0, ListOutcome.fatal FatalMsg.noLightsFound) ∧
    (lightList [PollEvent.timeout]).2 ≠
      ListOutcome.printed (lightListTable (gatheredLights [] [PollEvent.timeout])) ∧
    lightList [PollEvent.tick [demoLight] (some (LightsError.other "boom")),
        PollEvent.timeout] =
      (1, ListOutcome.fatal (FatalMsg.couldNotFindLights "boom")) := by
  refine ⟨rfl, ?_, rfl⟩
  decide

/-- C2 (amended): the `list` discovery loop calls `GetLights` once per
tick; provided every tick before the timeout carries a nil or
`ErrNotFound` error, the loop terminates exactly at the first timeout
event, performing no `GetLights` call after it, and prints the lights
gathered so far if that list is non-empty (an empty list is instead fatal,
and a hard tick error is fatal before the timeout). -/
theorem c2_polling_loop (pre post : List PollEvent)
    (htol : ∀ ev ∈ pre, isCleanTick ev = true)
    (hne : gatheredLights [] pre ≠ []) :
    lightList (pre ++ PollEvent.timeout :: post) =
      (pre.length, ListOutcome.printed (lightListTable (gatheredLights [] pre))) := by
  unfold lightList
  rw [lightListLoop_tolerated post pre [] htol]
  rw [if_neg (fun hlen => hne (List.length_eq_zero.mp hlen))]

/-- C2 witness: one clean tick, then the timeout: one `GetLights` call and
the table of that tick is printed. -/
theorem c2_polling_loop_witness :
    lightList [PollEvent.tick [demoLight] none, PollEvent.timeout] =
      (1, ListOutcome.printed (lightListTable [demoLight])) :=
  c2_polling_loop [PollEvent.tick [demoLight] none] [] (by decide) (by decide)

/-- C7: in the polling loop `ErrNotFound` (like a nil error) is tolerated
and polling continues with the returned list; any other `GetLights` error
is immediately fatal; and a timeout with the `lights` slice still empty is
fatal with `No lights found` rather than printing a table. -/
theorem c7_poll_errors :
    (∀ ls rest cur, lightListLoop (PollEvent.tick ls (some LightsError.errNotFound) :: rest) cur =
        ((lightListLoop rest ls).1 + 1, (lightListLoop rest ls).2)) ∧
    (∀ ls rest cur, lightListLoop (PollEvent.tick ls none :: rest) cur =
        ((lightListLoop rest ls).1 + 1, (lightListLoop rest ls).2)) ∧
    (∀ ls m rest cur, lightListLoop (PollEvent.tick ls (some (LightsError.other m)) :: rest) cur =
        (1, LoopResult.fatal (FatalMsg.couldNotFindLights m))) ∧
    (∀ rest, lightList (PollEvent.timeout :: rest) =
        (0, ListOutcome.fatal FatalMsg.noLightsFound)) :=
  ⟨fun _ _ _ => rfl, fun _ _ _ => rfl, fun _ _ _ _ => rfl, fun _ => rfl⟩

/-- C8: the printed table is a header row followed by one row per
discovered light carrying exactly the values of `ID()`, `GetLabel()`,
`GetPower()` and `GetColor()`; a light with a failing getter is skipped
and the remaining lights are still printed. -/
theorem c8_table_rows :
    (∀ lights, lightListTable lights = Row.header :: lights.filterMap renderRow) ∧
    (∀ (pre post : List Light) (bad : Light), renderRow bad = none →
      lightListTable (pre ++ bad :: post) =
        Row.header :: (pre.filterMap renderRow ++ post.filterMap renderRow)) := by
  have hmain : ∀ lights, printLights lights = lights.filterMap renderRow := by
    intro lights
    induction lights with
    | nil => rfl
    | cons l rest ih =>
      rw [List.filterMap_cons]
      cases h1 : l.getLabel with
      | error e =>
        have hr : renderRow l = none := by simp [renderRow, h1]
        rw [hr]
        simp only [printLights, h1]
        exact ih
      | ok label =>
        cases h2 : l.getPower with
        | error e =>
          have hr : renderRow l = none := by simp [renderRow, h1, h2]
          rw [hr]
          simp only [printLights, h1, h2]
          exact ih
        | ok power =>
          cases h3 : l.getColor with
          | error e =>
            have hr : renderRow l = none := by simp [renderRow, h1, h2, h3]
            rw [hr]
            simp only [printLights, h1, h2, h3]
            exact ih
          | ok color =>
            have hr : renderRow l = some (Row.entry l.id label power color) := by
              simp [renderRow, h1, h2, h3]
            rw [hr]
            simp only [printLights, h1, h2, h3]
            rw [ih]
  refine ⟨fun lights => ?_, fun pre post bad hbad => ?_⟩
  · unfold lightListTable
    rw [hmain]
  · unfold lightListTable
    rw [hmain, List.filterMap_append, List.filterMap_cons, hbad]

/-- C8 witness: a light whose label getter fails is skipped; the lights
around it are still printed with their getter values. -/
theorem c8_table_rows_witness :
    lightListTable [demoLight, badLight, demoLight2] =
      [Row.header, Row.entry 1 "kitchen" true demoColor,
       Row.entry 2 "porch" false demoColor] := by
  have h := c8_table_rows.2 [demoLight] [demoLight2] badLight (by decide)
  simpa using h

end Golifx
